import Mathlib

/-!
Verification of the teek native file-drop subsystem.

This file gives a shallow embedding, in Lean, of the drop-target protocol
engine of the teek repository:

* the URI/path decoder of src/ext/teek/tkdrop_x11.c
  (hex_decode, uri_to_path, process_uri_list),
* the X11 XDND event handler of the same file (xdnd_event_handler,
  send_xdnd_status, send_xdnd_finished, teek_register_drop_target),
* the Windows OLE drop-target adapter of src/ext/teek/tkdrop_win.c
  (tdt_DragEnter, tdt_DragOver, RegisterDragDrop-based registration),

and proves theorems settling the claims of the specification against it.

Modelling conventions:
* C strings and byte buffers are lists of Nat byte values (each < 256 where
  it matters); reading a buffer as a C string stops at the first NUL byte,
  modelled by the function cstr.
* X atoms are opaque integers interned once at registration time
  (Tk_InternAtom); distinct names yield distinct atoms, modelled by fixed
  distinct Nat constants.
* Stateful handlers are pure functions from (state, environment, event) to
  a result record carrying the new state, the list of emitted protocol
  actions, the new value of the transfer window property, and the C return
  value of the handler.
* malloc / calloc / strdup are assumed to succeed (an allocation failure
  makes the C code skip work silently; no claim is about that path).
-/

namespace Teek

/-- Byte values of a string literal, used to write byte-list constants. -/
def bytes (s : String) : List Nat := s.data.map Char.toNat

/-- Reading a byte buffer as a C string: the contents up to the first NUL. -/
def cstr (s : List Nat) : List Nat := s.takeWhile (fun b => b ≠ 0)

/-! ## URI/path decoder (src/ext/teek/tkdrop_x11.c lines 46..99) -/

/-- The per-character conversion chain of hex_decode (tkdrop_x11.c lines
53..60), written once here where the C repeats it for hi and lo: digits,
then lowercase a..f, then uppercase A..F, otherwise the -1 failure
(none). -/
def hex_digit (c : Nat) : Option Nat :=
  if 48 ≤ c ∧ c ≤ 57 then some (c - 48)
  else if 97 ≤ c ∧ c ≤ 102 then some (c - 97 + 10)
  else if 65 ≤ c ∧ c ≤ 70 then some (c - 65 + 10)
  else none

/-- hex_decode from tkdrop_x11.c lines 47..62: decode a two hex-digit
escape, accepting digits, lowercase a..f and uppercase A..F, returning
(hi << 4) | lo, or none where the C function returns -1. -/
def hex_decode (hi lo : Nat) : Option Nat :=
  match hex_digit hi, hex_digit lo with
  | some h, some l => some ((h <<< 4) ||| l)
  | _, _ => none

/-- The URL-decode loop of uri_to_path (tkdrop_x11.c lines 83..96):
a percent sign followed by two further bytes that form a valid hex escape
is replaced by the denoted byte; otherwise the byte is copied literally
and scanning resumes at the next byte. -/
def pdecodeGo : Nat → List Nat → List Nat
  | _, [] => []
  | 0, l => l
  | fuel + 1, c :: t =>
    match t with
    | a :: b :: t2 =>
      if c = 37 then
        match hex_decode a b with
        | some n => n :: pdecodeGo fuel t2
        | none => c :: pdecodeGo fuel t
      else c :: pdecodeGo fuel t
    | _ => c :: pdecodeGo fuel t

/-- The URL-decode loop, entered with fuel bounding the number of loop
iterations by the buffer length (the loop consumes at least one byte per
iteration, so the bound is never reached). -/
def pdecode (s : List Nat) : List Nat := pdecodeGo s.length s

/-- uri_to_path from tkdrop_x11.c lines 67..99, on the byte-list level.
The C function decodes in place and then returns the pointer
uri + 7 + (uri[7] != the slash byte) * 9, where uri[7] is read AFTER the
in-place decode:

* no file:// prefix: return NULL (none here);
* the rest begins with the nine bytes localhost and not with a slash
  (checked before decoding): the decode destination is uri + 16 and
  position 7 keeps the untouched letter l, so the returned pointer
  uri + 16 is the decoded text after the host;
* otherwise the decode destination is uri + 7, so position 7 now holds
  the first decoded byte (or the new terminating NUL when nothing was
  decoded):
  - the first decoded byte is a slash (the raw rest began with a slash,
    or an escape decoded to one): return uri + 7, the whole decoded text;
  - otherwise return uri + 16, which holds the decoded text minus its
    first 9 bytes when at least 9 bytes were decoded; when fewer were
    decoded but the raw rest has at least 9 bytes, the positions from 16
    up to the original terminator still hold the raw un-decoded input, so
    the result is the raw rest minus its first 9 bytes; and when the raw
    rest itself is shorter than 9 bytes the pointer lands past the
    allocation: undefined behaviour, rendered here as the empty string. -/
def uri_to_path (uri : List Nat) : Option (List Nat) :=
  if uri.take 7 = bytes "file://" then
    let rest := uri.drop 7
    if rest.head? ≠ some 47 ∧ rest.take 9 = bytes "localhost" then
      some (pdecode (rest.drop 9))
    else
      let decoded := pdecode rest
      if decoded.head? = some 47 then some decoded
      else if 9 ≤ decoded.length then some (decoded.drop 9)
      else if 9 ≤ rest.length then some (rest.drop 9)
      else some []
  else
    none

/-! ## text/uri-list processing (src/ext/teek/tkdrop_x11.c lines 142..186) -/

/-- The strstr(line, CRLF) split: the text before the first CRLF pair, and
the text after it (none when no CRLF occurs). -/
def splitCRLF : List Nat → List Nat × Option (List Nat)
  | [] => ([], none)
  | c :: t =>
    if c = 13 ∧ t.head? = some 10 then ([], some t.tail)
    else
      let p := splitCRLF t
      (c :: p.1, p.2)

/-- The per-line body of the process_uri_list loop (tkdrop_x11.c lines
160..171): skip empty lines and lines starting with the hash byte 35,
convert the rest with uri_to_path, and keep the resulting path when it is
non-NULL and non-empty as a C string. -/
def handleLine (line : List Nat) : List (List Nat) :=
  if line.isEmpty || line.head? == some 35 then []
  else
    match uri_to_path line with
    | some path => if (cstr path).isEmpty then [] else [cstr path]
    | none => []

/-- The process_uri_list loop (tkdrop_x11.c lines 155..174), with a fuel
argument bounding the recursion by the buffer length (each iteration
consumes the current line and its CRLF terminator). -/
def uriListGo : Nat → List Nat → List (List Nat)
  | _, [] => []
  | 0, _ :: _ => []
  | fuel + 1, c :: t =>
    match splitCRLF (c :: t) with
    | (line, some rest) => handleLine line ++ uriListGo fuel rest
    | (line, none) => handleLine line

/-- process_uri_list from tkdrop_x11.c lines 142..186: the ordered list of
decoded file paths appended to the Tcl list for the single DropFile
event. The data buffer is read as a C string (buf[len] = NUL; an embedded
NUL truncates it for strstr and the loop). -/
def process_uri_list (data : List Nat) : List (List Nat) :=
  uriListGo (cstr data).length (cstr data)

/-- Line view of a payload: the lines cut at each CRLF pair, fuelled the
same way as the processing loop. Used to state that the loop is a
filter of the line decomposition. -/
def linesGo : Nat → List Nat → List (List Nat)
  | _, [] => []
  | 0, s => [s]
  | fuel + 1, c :: t =>
    match splitCRLF (c :: t) with
    | (line, some rest) => line :: linesGo fuel rest
    | (line, none) => [line]

/-- The CRLF line decomposition of a byte string. -/
def linesCRLF (s : List Nat) : List (List Nat) := linesGo s.length s

/-- A line survives the comment/empty filter of process_uri_list. -/
def keepLine (l : List Nat) : Bool := !(l.isEmpty || l.head? == some 35)

/-- Declarative per-line decoding: the path of a line, none when the line
is not a file URI or decodes to an empty C string. -/
def decodeLine (l : List Nat) : Option (List Nat) :=
  (uri_to_path l).bind fun p => if (cstr p).isEmpty then none else some (cstr p)

/-! ## X11 XDND state machine (src/ext/teek/tkdrop_x11.c lines 101..337)

The atoms cached in TeekXdndState are interned from distinct strings by
Tk_InternAtom at registration time, so they are distinct opaque integers;
the concrete numerals below stand for an arbitrary such assignment. Atom
value 0 is None (no property). -/

def XDND_VERSION : Nat := 5

def xdnd_aware : Nat := 1
def xdnd_enter : Nat := 2
def xdnd_position : Nat := 3
def xdnd_status : Nat := 4
def xdnd_drop : Nat := 5
def xdnd_finished : Nat := 6
def xdnd_selection : Nat := 7
def xdnd_type_list : Nat := 8
def xdnd_action_copy : Nat := 9
def text_uri_list : Nat := 10
def teek_drop_prop : Nat := 11

/-- The mutable per-window drop-target state of tkdrop_x11.c lines 23..44:
the fields mutated during a drag (source_window, has_uri_list) plus the
registered window id used in outgoing messages; interp, widget_path,
display and the cached atoms are per-registration constants and are kept
outside the state. calloc zero-fills, so the initial state is
source_window = 0, has_uri_list = false. -/
structure TeekXdndState where
  window : Nat
  source_window : Nat
  has_uri_list : Bool
deriving DecidableEq, Repr

/-- An XClientMessage as consumed by the handler: its message_type atom
and the five 32-bit data longs (all values used are non-negative:
window ids, packed version word, atoms, timestamps). -/
structure XClientMessage where
  message_type : Nat
  l0 : Nat := 0
  l1 : Nat := 0
  l2 : Nat := 0
  l3 : Nat := 0
  l4 : Nat := 0
deriving DecidableEq, Repr

/-- The X events the generic handler receives: ClientMessage,
SelectionNotify (with its property atom, 0 when the conversion failed),
or any other event type. -/
inductive XEventKind where
  | clientMessage (cm : XClientMessage)
  | selectionNotify (property : Nat)
  | other
deriving DecidableEq, Repr

/-- The observable actions the handler performs: the XdndStatus and
XdndFinished client messages sent back to the source (XSendEvent), the
XConvertSelection request, and the DropFile Tcl virtual event carrying
the decoded path list. -/
inductive XAction where
  | sendStatus (recipient target : Nat) (accept : Bool) (action : Nat)
  | sendFinished (recipient target : Nat) (success : Bool) (action : Nat)
  | convertSelection (selection target_type property requestor time : Nat)
  | emitDropFile (paths : List (List Nat))
deriving DecidableEq, Repr

/-- send_xdnd_status from tkdrop_x11.c lines 102..120: data.l[0] is the
target window, bit 0 of data.l[1] the accept flag, the rectangle is
empty, data.l[4] the copy action when accepting, else 0. -/
def send_xdnd_status (st : TeekXdndState) (accept : Bool) : XAction :=
  .sendStatus st.source_window st.window accept (if accept then xdnd_action_copy else 0)

/-- send_xdnd_finished from tkdrop_x11.c lines 123..139: data.l[1] is the
success flag, data.l[2] the copy action on success, else 0. -/
def send_xdnd_finished (st : TeekXdndState) (success : Bool) : XAction :=
  .sendFinished st.source_window st.window success (if success then xdnd_action_copy else 0)

/-- The X-server-side data the handler reads during a step: the
XdndTypeList property on the source window (an atom array; none when
XGetWindowProperty yields no data) and the TeekDropData property on the
registered window (the transferred selection bytes; none when absent). -/
structure XEnv where
  typeList : Option (List Nat)
  dropProp : Option (List Nat)
deriving DecidableEq, Repr

/-- Result of one handler invocation: the state after the call, the
actions performed in order, the TeekDropData property after the call
(XGetWindowProperty is invoked with delete = True), and the C return
value (true for 1 = handled, false for 0). -/
structure StepResult where
  st : TeekXdndState
  acts : List XAction
  dropProp : Option (List Nat)
  handled : Bool
deriving DecidableEq, Repr

/-- xdnd_event_handler from tkdrop_x11.c lines 189..282, translated
branch by branch:

* XdndEnter: store the source window (this write precedes the version
  check), drop the message when the advertised version exceeds
  XDND_VERSION, otherwise recompute has_uri_list from the inline types
  data.l[2..4], or, when bit 0 of data.l[1] is set, from the first 1024
  entries of the XdndTypeList property of the source;
* XdndPosition: send XdndStatus echoing has_uri_list;
* XdndDrop: when accepting, request conversion of XdndSelection to
  text/uri-list into TeekDropData with the message timestamp data.l[2];
  otherwise send XdndFinished failure;
* SelectionNotify on TeekDropData: read and delete the property (bounded
  read of 65536 longs = 262144 bytes), run process_uri_list and emit one
  DropFile event when data was present and non-empty, then always send
  XdndFinished success;
* anything else: untouched state, no action, return 0.

There is no XdndLeave branch in the source. -/
def xdnd_event_handler (st : TeekXdndState) (env : XEnv) (ev : XEventKind) : StepResult :=
  match ev with
  | .clientMessage cm =>
    if cm.message_type = xdnd_enter then
      let st1 : TeekXdndState := { st with source_window := cm.l0 }
      let version := (cm.l1 >>> 24) &&& 255
      if XDND_VERSION < version then
        ⟨st1, [], env.dropProp, false⟩
      else
        let more_than_3 := cm.l1 &&& 1 == 1
        let has : Bool :=
          if more_than_3 then
            match env.typeList with
            | some types => (types.take 1024).contains text_uri_list
            | none => false
          else
            cm.l2 == text_uri_list || cm.l3 == text_uri_list || cm.l4 == text_uri_list
        ⟨{ st1 with has_uri_list := has }, [], env.dropProp, true⟩
    else if cm.message_type = xdnd_position then
      ⟨st, [send_xdnd_status st st.has_uri_list], env.dropProp, true⟩
    else if cm.message_type = xdnd_drop then
      if st.has_uri_list then
        ⟨st, [.convertSelection xdnd_selection text_uri_list teek_drop_prop st.window cm.l2],
          env.dropProp, true⟩
      else
        ⟨st, [send_xdnd_finished st false], env.dropProp, true⟩
    else
      ⟨st, [], env.dropProp, false⟩
  | .selectionNotify property =>
    if property = teek_drop_prop then
      let data := env.dropProp.map (List.take 262144)
      let evs : List XAction :=
        match data with
        | some d => if 0 < d.length then [.emitDropFile (process_uri_list d)] else []
        | none => []
      ⟨st, evs ++ [send_xdnd_finished st true], none, true⟩
    else
      ⟨st, [], env.dropProp, false⟩
  | .other => ⟨st, [], env.dropProp, false⟩

/-- Per-display X11 registration world: the list of generic-handler
states installed by Tk_CreateGenericHandler, in installation order, and
the set of windows carrying the XdndAware property (XChangeProperty with
PropModeReplace, hence idempotent). -/
structure X11World where
  handlers : List TeekXdndState
  aware : List Nat
deriving DecidableEq, Repr

/-- The calloc-zeroed initial per-window state built at registration
(tkdrop_x11.c lines 303..313). -/
def x11_initial_state (window : Nat) : TeekXdndState :=
  { window := window, source_window := 0, has_uri_list := false }

/-- teek_register_drop_target from tkdrop_x11.c lines 291..337: fail when
the window has no display or id (0 models NULL); otherwise allocate a
fresh zeroed state, intern the atoms, set XdndAware = 5 on the window and
install another generic event handler. True models TCL_OK. There is no
already-registered check: every call installs a fresh state. -/
def teek_register_drop_target_x11 (display window : Nat) (w : X11World) :
    X11World × Bool :=
  if display = 0 ∨ window = 0 then (w, false)
  else
    ({ handlers := w.handlers ++ [x11_initial_state window],
       aware := if window ∈ w.aware then w.aware else w.aware ++ [window] }, true)

/-- Number of live X11 adapter states for a window: the installed handler
states whose registered window is that window. -/
def x11_live_adapters (w : X11World) (window : Nat) : Nat :=
  (w.handlers.filter (fun st => st.window == window)).length

/-! ## Windows OLE drop-target adapter (src/ext/teek/tkdrop_win.c) -/

def DROPEFFECT_NONE : Nat := 0
def DROPEFFECT_COPY : Nat := 1

/-- The TeekDropTarget adapter struct of tkdrop_win.c lines 29..35, minus
the per-registration constants (vtable pointer, interp, widget_path):
the reference count and the window handle. Note there is no field
recording the DragEnter acceptability check. -/
structure TeekDropTarget where
  ref_count : Nat
  hwnd : Nat
deriving DecidableEq, Repr

/-- The one aspect of an IDataObject the adapter queries on enter:
whether QueryGetData succeeds for the CF_HDROP file-list format
(has_file_data, tkdrop_win.c lines 69..74). -/
structure IDataObject where
  hasHDROP : Bool
deriving DecidableEq, Repr

/-- has_file_data from tkdrop_win.c lines 69..74. -/
def has_file_data (pDataObj : IDataObject) : Bool := pDataObj.hasHDROP

/-- Result of a COM drop-target method: the adapter state after the call,
the effect written to *pdwEffect, and the DropFile events generated
(each carrying its path list). -/
structure ComResult where
  tdt : TeekDropTarget
  effect : Nat
  events : List (List (List Nat))
deriving DecidableEq, Repr

/-- tdt_DragEnter from tkdrop_win.c lines 76..86: reply copy-effect when
the payload advertises CF_HDROP, none-effect otherwise; nothing is
stored in the adapter and no event is generated. -/
def tdt_DragEnter (tdt : TeekDropTarget) (pDataObj : IDataObject) : ComResult :=
  { tdt := tdt
    effect := if has_file_data pDataObj then DROPEFFECT_COPY else DROPEFFECT_NONE
    events := [] }

/-- tdt_DragOver from tkdrop_win.c lines 88..93: unconditionally reply
copy-effect; no state change, no event. -/
def tdt_DragOver (tdt : TeekDropTarget) : ComResult :=
  { tdt := tdt, effect := DROPEFFECT_COPY, events := [] }

/-- The OS-side OLE world: the RegisterDragDrop table keyed by HWND, and
the process-wide OleInitialize flag. -/
structure WinWorld where
  registered : List (Nat × TeekDropTarget)
  oleInitialized : Bool
deriving DecidableEq, Repr

/-- The two RegisterDragDrop outcomes the source distinguishes:
S_OK, and the DRAGDROP_E_ALREADYREGISTERED failure (other failure codes
are environment faults outside this model). -/
inductive RegResult where
  | ok
  | alreadyRegistered
deriving DecidableEq, Repr

/-- The OS RegisterDragDrop contract: fail with
DRAGDROP_E_ALREADYREGISTERED when the HWND already has a registered drop
target, otherwise record the given target for the HWND. -/
def RegisterDragDrop (w : WinWorld) (hwnd : Nat) (t : TeekDropTarget) :
    WinWorld × RegResult :=
  if w.registered.any (fun p => p.1 == hwnd) then (w, .alreadyRegistered)
  else ({ w with registered := w.registered ++ [(hwnd, t)] }, .ok)

/-- teek_register_drop_target from tkdrop_win.c lines 174..220: fail when
the window has no HWND (0 models NULL); call OleInitialize (idempotent,
process-wide); allocate an adapter with ref_count 1 and register it; on
DRAGDROP_E_ALREADYREGISTERED free the fresh adapter and return TCL_OK
anyway; on S_OK return TCL_OK. True models TCL_OK. -/
def teek_register_drop_target_win (hwnd : Nat) (w : WinWorld) : WinWorld × Bool :=
  if hwnd = 0 then (w, false)
  else
    let w1 : WinWorld := { w with oleInitialized := true }
    match RegisterDragDrop w1 hwnd { ref_count := 1, hwnd := hwnd } with
    | (w2, .ok) => (w2, true)
    | (w2, .alreadyRegistered) => (w2, true)

/-- Number of live Windows adapter instances registered for an HWND. -/
def win_live_adapters (w : WinWorld) (hwnd : Nat) : Nat :=
  (w.registered.filter (fun p => p.1 == hwnd)).length

/-! ## Spec-side percent-escaping definitions -/

/-- Value of an ASCII hex digit byte, uppercase or lowercase: the
specification-side meaning of a hex digit, used to state what hex_decode
computes. -/
def hexDigitValue (c : Nat) : Option Nat :=
  if 48 ≤ c ∧ c ≤ 57 then some (c - 48)
  else if 65 ≤ c ∧ c ≤ 70 then some (c - 55)
  else if 97 ≤ c ∧ c ≤ 102 then some (c - 87)
  else none

/-- Modelled from the spec: the repository contains no percent-encoder;
the round-trip property of the specification speaks of re-encoding by,
quote, percent-escaping non-printable/reserved bytes. A byte is escaped
here when it is outside printable ASCII (below 33, which covers controls
and the space, or above 126) or is one of the reserved bytes percent 37,
hash 35 and question mark 63. -/
def percent_escaped (b : Nat) : Bool :=
  b < 33 || 126 < b || b == 37 || b == 35 || b == 63

/-- Uppercase hex digit byte for a value below 16. -/
def hexUpper (n : Nat) : Nat := if n < 10 then 48 + n else 55 + n

/-- Modelled from the spec: percent-encode a byte string, escaping every
non-printable/reserved byte as a percent sign followed by two uppercase
hex digits and copying every other byte literally. -/
def percent_encode : List Nat → List Nat
  | [] => []
  | b :: t =>
    if percent_escaped b then
      37 :: hexUpper (b / 16) :: hexUpper (b % 16) :: percent_encode t
    else b :: percent_encode t

end Teek

namespace Teek

/-! ## Basic properties of the percent-decode loop -/

/-- The decode loop leaves an exhausted buffer empty at any fuel. -/
theorem pdecodeGo_nil (f : Nat) : pdecodeGo f [] = [] := by
  cases f <;> rfl

/-- The fuel argument of pdecodeGo is irrelevant as long as it bounds the
input length: the loop consumes at least one byte per iteration. -/
theorem pdecodeGo_irrel : ∀ (n : Nat) (s : List Nat) (f g : Nat),
    s.length ≤ f → s.length ≤ g → s.length ≤ n → pdecodeGo f s = pdecodeGo g s := by
  intro n
  induction n with
  | zero =>
    intro s f g _ _ hn
    have hs : s = [] := by cases s <;> simp_all
    subst hs
    cases f <;> cases g <;> rfl
  | succ n ih =>
    intro s f g hf hg hn
    cases s with
    | nil => cases f <;> cases g <;> rfl
    | cons c t =>
      rcases f with _ | f
      · simp at hf
      rcases g with _ | g
      · simp at hg
      simp only [List.length_cons, List.length_nil] at hf hg hn
      simp only [pdecodeGo]
      cases t with
      | nil => simp [pdecodeGo_nil]
      | cons a t1 =>
        simp only [List.length_cons, List.length_nil] at hf hg hn
        cases t1 with
        | nil =>
          simp only [List.length_nil] at hf hg hn
          have h1 := ih [a] f g (by simp; omega) (by simp; omega) (by simp; omega)
          dsimp only
          simp only [h1]
        | cons b t2 =>
          simp only [List.length_cons, List.length_nil] at hf hg hn
          dsimp only
          by_cases hc : c = 37
          · rw [if_pos hc, if_pos hc]
            cases hd : hex_decode a b with
            | some m =>
              have h1 := ih t2 f g (by omega) (by omega) (by omega)
              simp only [hd, h1]
            | none =>
              have h1 := ih (a :: b :: t2) f g (by simp; omega) (by simp; omega)
                (by simp; omega)
              simp only [hd, h1]
          · rw [if_neg hc, if_neg hc]
            have h1 := ih (a :: b :: t2) f g (by simp; omega) (by simp; omega)
              (by simp; omega)
            simp only [h1]

/-- A valid escape at the head of the input decodes to its byte. -/
theorem pdecode_escape (a b n : Nat) (t : List Nat) (h : hex_decode a b = some n) :
    pdecode (37 :: a :: b :: t) = n :: pdecode t := by
  show pdecodeGo _ _ = _
  simp only [List.length_cons, pdecodeGo, if_pos rfl, h]
  exact congrArg (n :: ·) (pdecodeGo_irrel (t.length + 2) t (t.length + 2) t.length
    (by omega) le_rfl (by omega))

/-- A malformed escape leaves the percent byte in place and decoding
resumes at the next byte. -/
theorem pdecode_escape_bad (a b : Nat) (t : List Nat) (h : hex_decode a b = none) :
    pdecode (37 :: a :: b :: t) = 37 :: pdecode (a :: b :: t) := by
  show pdecodeGo _ _ = _
  simp only [List.length_cons, pdecodeGo, if_pos rfl, h]
  rfl

/-- A byte other than the percent sign is copied literally. -/
theorem pdecode_lit (c : Nat) (t : List Nat) (h : c ≠ 37) :
    pdecode (c :: t) = c :: pdecode t := by
  show pdecodeGo _ _ = _
  cases t with
  | nil => rfl
  | cons a t1 =>
    cases t1 with
    | nil => rfl
    | cons b t2 =>
      simp only [List.length_cons, pdecodeGo, if_neg h]
      rfl

end Teek

namespace Teek

/-! ## Hex digit semantics -/

/-- The C digit chain agrees with the spec-side hex digit value. -/
theorem hex_digit_eq (c : Nat) : hex_digit c = hexDigitValue c := by
  unfold hex_digit hexDigitValue
  split_ifs <;> first | rfl | omega | (exfalso; omega) | (congr 1; omega)

/-- A recognized hex digit has value below 16. -/
theorem hexDigitValue_lt (c v : Nat) (h : hexDigitValue c = some v) : v < 16 := by
  unfold hexDigitValue at h
  split_ifs at h <;> simp_all <;> omega

/-- What hex_decode computes: the byte 16 * hi + lo exactly when both
characters are hex digits (upper or lower case), none otherwise. -/
theorem hex_decode_eq (a b : Nat) :
    hex_decode a b = (hexDigitValue a).bind fun va =>
      (hexDigitValue b).map fun vb => 16 * va + vb := by
  have hor : ∀ h : Nat, h < 16 → ∀ l : Nat, l < 16 → (h <<< 4) ||| l = 16 * h + l := by
    decide
  unfold hex_decode
  rw [hex_digit_eq a, hex_digit_eq b]
  cases ha : hexDigitValue a with
  | none => rfl
  | some va =>
    cases hb : hexDigitValue b with
    | none => rfl
    | some vb =>
      simp [hor va (hexDigitValue_lt a va ha) vb (hexDigitValue_lt b vb hb)]

/-- The uppercase hex digit of a nibble decodes back to the nibble. -/
theorem hexDigitValue_hexUpper (n : Nat) (h : n < 16) :
    hexDigitValue (hexUpper n) = some n := by
  interval_cases n <;> rfl

/-- hex_decode inverts the two-digit uppercase encoding of a byte. -/
theorem hex_decode_hexUpper (b : Nat) (h : b < 256) :
    hex_decode (hexUpper (b / 16)) (hexUpper (b % 16)) = some b := by
  rw [hex_decode_eq, hexDigitValue_hexUpper (b / 16) (by omega),
    hexDigitValue_hexUpper (b % 16) (by omega)]
  simp
  omega

/-- Stripping the localhost host: for every suffix p, the URI made of
file://localhost followed by p decodes to the decoded p (the returned
pointer coincides with the decode destination at offset 16). -/
theorem uri_localhost (p : List Nat) :
    uri_to_path (bytes "file://localhost" ++ p) = some (pdecode p) := by
  have h1 : bytes "file://localhost" = bytes "file://" ++ bytes "localhost" := by decide
  rw [h1, List.append_assoc]
  have h7 : (bytes "file://").length = 7 := by decide
  have h9 : (bytes "localhost").length = 9 := by decide
  have hhead : (bytes "localhost" ++ p).head? = some 108 := by
    have h2 : bytes "localhost" = 108 :: bytes "ocalhost" := by decide
    rw [h2]; rfl
  simp [uri_to_path, List.take_left' h7, List.drop_left' h7, List.take_left' h9,
    List.drop_left' h9, hhead]

/-- C3: the decoder replaces each well-formed percent escape (both
characters hex digits, upper or lower case, as characterized against
hexDigitValue) by the single byte 16 * hi + lo it denotes, raw byte
substitution only; a percent sign not followed by two hex digits (be it a
failed hex_decode or a truncated tail) is passed through literally; and
the optional localhost host component is stripped, so file://localhost
followed by a path decodes to that path. -/
theorem percent_escape_decode_semantics :
    (∀ a b n : Nat, ∀ t : List Nat, hex_decode a b = some n →
        pdecode (37 :: a :: b :: t) = n :: pdecode t)
    ∧ (∀ a b : Nat, ∀ t : List Nat, hex_decode a b = none →
        pdecode (37 :: a :: b :: t) = 37 :: pdecode (a :: b :: t))
    ∧ (∀ a b : Nat,
        hex_decode a b = (hexDigitValue a).bind fun va =>
          (hexDigitValue b).map fun vb => 16 * va + vb)
    ∧ (∀ c : Nat, pdecode [37, c] = [37, c])
    ∧ pdecode [37] = [37]
    ∧ (∀ p : List Nat, uri_to_path (bytes "file://localhost" ++ p) = some (pdecode p)) :=
  ⟨pdecode_escape, pdecode_escape_bad, hex_decode_eq, fun _ => rfl, rfl, uri_localhost⟩

/-- Witness for C3 at concrete inputs: the escape of 4a decodes to byte
74, the malformed escape of 4G is passed through, and
file://localhost/etc/hosts decodes to /etc/hosts. -/
theorem percent_escape_decode_semantics_witness :
    hex_decode 52 97 = some 74 ∧ pdecode [37, 52, 97] = [74]
    ∧ hex_decode 52 71 = none ∧ pdecode [37, 52, 71] = [37, 52, 71]
    ∧ uri_to_path (bytes "file://localhost/etc/hosts") = some (bytes "/etc/hosts") := by
  refine ⟨by decide, ?_, by decide, ?_, ?_⟩
  · have h := percent_escape_decode_semantics.1 52 97 74 [] (by decide)
    simpa using h
  · have h := percent_escape_decode_semantics.2.1 52 71 [] (by decide)
    rw [h]; decide
  · have h := percent_escape_decode_semantics.2.2.2.2.2 (bytes "/etc/hosts")
    rw [show bytes "file://localhost/etc/hosts"
        = bytes "file://localhost" ++ bytes "/etc/hosts" from by decide]
    rw [h]; decide

/-! ## Round trip of the escaping layer -/

/-- Decoding inverts the spec-modelled percent encoding of byte strings. -/
theorem pdecode_percent_encode (s : List Nat) (h : ∀ b ∈ s, b < 256) :
    pdecode (percent_encode s) = s := by
  induction s with
  | nil => rfl
  | cons b t ih =>
    have hb : b < 256 := h b (List.mem_cons_self b t)
    have ht : ∀ x ∈ t, x < 256 := fun x hx => h x (List.mem_cons_of_mem b hx)
    by_cases he : percent_escaped b
    · rw [show percent_encode (b :: t)
          = 37 :: hexUpper (b / 16) :: hexUpper (b % 16) :: percent_encode t from by
            simp [percent_encode, he]]
      rw [pdecode_escape _ _ _ _ (hex_decode_hexUpper b hb), ih ht]
    · rw [show percent_encode (b :: t) = b :: percent_encode t from by
        simp [percent_encode, he]]
      have hb37 : b ≠ 37 := by
        intro e; rw [e] at he; exact he (by decide)
      rw [pdecode_lit b _ hb37, ih ht]

/-- C8: on the escaping layer alone, decoding a percent-encoded URI (an
output of the spec-modelled encoder on a byte string) and re-encoding the
result reproduces the original URI. -/
theorem percent_roundtrip (u : List Nat)
    (h : ∃ s, (∀ b ∈ s, b < 256) ∧ u = percent_encode s) :
    percent_encode (pdecode u) = u := by
  obtain ⟨s, hs, rfl⟩ := h
  rw [pdecode_percent_encode s hs]

/-- Witness for C8 at a concrete encoded URI with an escaped space. -/
theorem percent_roundtrip_witness :
    (∃ s, (∀ b ∈ s, b < 256) ∧ bytes "/a%20b.txt" = percent_encode s)
    ∧ percent_encode (pdecode (bytes "/a%20b.txt")) = bytes "/a%20b.txt" :=
  ⟨⟨bytes "/a b.txt", by decide, by decide⟩,
    percent_roundtrip (bytes "/a%20b.txt") ⟨bytes "/a b.txt", by decide, by decide⟩⟩

/-- C10 counterexample: the return pointer is computed from uri[7] read
AFTER the in-place decode, so the claimed result, the decoded text minus
its first 9 bytes, is wrong in two defined-behaviour cases that satisfy
the hypotheses of the claim. With rest the ten bytes of the escaped
/tmp/x (head a percent byte, not localhost) the decode makes the first
byte a slash and the C returns the whole decoded path, not the empty
9-byte suffix of the 6-byte decoded text; and with the escaped ABC/xyz
rest the decoded text is only 7 bytes, so the returned pointer lands on
the leftover raw bytes of the input, yielding the raw /xyz. -/
theorem uri_escaped_slash_returns_whole_path :
    (bytes "%2Ftmp%2Fx").head? ≠ some 47
    ∧ (bytes "%2Ftmp%2Fx").take 9 ≠ bytes "localhost"
    ∧ uri_to_path (bytes "file://%2Ftmp%2Fx") = some (bytes "/tmp/x")
    ∧ some (bytes "/tmp/x") ≠ some ((pdecode (bytes "%2Ftmp%2Fx")).drop 9)
    ∧ uri_to_path (bytes "file://%41%42%43/xyz") = some (bytes "/xyz") := by
  refine ⟨by decide, by decide, by decide, by decide, by decide⟩

/-- C10 amended: on a file URI whose rest neither starts with a slash
nor with the nine bytes localhost, the decoder does not drop the line
(the result is never none); it percent-decodes the whole host-plus-path
text in place and returns, by the post-decode uri[7] test: the whole
decoded text when its first byte came out a slash; otherwise the
decoded text minus its first 9 bytes when at least 9 bytes were decoded;
otherwise the raw un-decoded rest minus its first 9 bytes when the rest
has at least 9 bytes (leftover buffer contents); and the remaining case
reads past the allocation (undefined behaviour, empty here). -/
theorem nonlocalhost_host_return_cases (t : List Nat) (h1 : t.head? ≠ some 47)
    (h2 : t.take 9 ≠ bytes "localhost") :
    uri_to_path (bytes "file://" ++ t)
      = some (if (pdecode t).head? = some 47 then pdecode t
          else if 9 ≤ (pdecode t).length then (pdecode t).drop 9
          else if 9 ≤ t.length then t.drop 9
          else [])
    ∧ uri_to_path (bytes "file://" ++ t) ≠ none := by
  have h7 : (bytes "file://").length = 7 := by decide
  have h : uri_to_path (bytes "file://" ++ t)
      = some (if (pdecode t).head? = some 47 then pdecode t
          else if 9 ≤ (pdecode t).length then (pdecode t).drop 9
          else if 9 ≤ t.length then t.drop 9
          else []) := by
    simp [uri_to_path, List.take_left' h7, List.drop_left' h7, h1, h2]
    split_ifs <;> rfl
  exact ⟨h, by rw [h]; simp⟩

/-- Witness for the amended C10 on the host hostname: 12 bytes decode,
so the result is the decoded text minus the 9 bytes of the decoded host
and its trailing slash. -/
theorem nonlocalhost_host_return_cases_witness :
    (bytes "hostname/a%20b").head? ≠ some 47
    ∧ (bytes "hostname/a%20b").take 9 ≠ bytes "localhost"
    ∧ uri_to_path (bytes "file://hostname/a%20b") = some (bytes "a b") := by
  refine ⟨by decide, by decide, ?_⟩
  have h := (nonlocalhost_host_return_cases (bytes "hostname/a%20b")
    (by decide) (by decide)).1
  rw [show bytes "file://hostname/a%20b"
      = bytes "file://" ++ bytes "hostname/a%20b" from by decide]
  rw [h]; decide

end Teek

namespace Teek

/-! ## The uri-list loop as a filter of the line decomposition -/

/-- A successful CRLF split accounts for the line, the two separator
bytes and the rest. -/
theorem splitCRLF_some_length (s : List Nat) :
    ∀ l r, splitCRLF s = (l, some r) → s.length = l.length + 2 + r.length := by
  induction s with
  | nil => intro l r h; simp [splitCRLF] at h
  | cons c t ih =>
    intro l r h
    simp only [splitCRLF] at h
    by_cases hc : c = 13 ∧ t.head? = some 10
    · rw [if_pos hc] at h
      injection h with h1 h2
      injection h2 with h2
      subst h1
      cases t with
      | nil => simp at hc
      | cons d t2 =>
        simp only [List.tail_cons] at h2
        subst h2
        simp
        omega
    · rw [if_neg hc] at h
      rcases hsp : splitCRLF t with ⟨p1, p2⟩
      rw [hsp] at h
      injection h with h1 h2
      subst h1
      subst h2
      have := ih p1 r hsp
      simp [this]
      omega

/-- The loop body equals the declarative keep-and-decode of one line. -/
theorem handleLine_eq (l : List Nat) :
    handleLine l = if keepLine l then (decodeLine l).toList else [] := by
  unfold handleLine keepLine decodeLine
  by_cases hk : l.isEmpty || l.head? == some 35
  · simp [hk]
  · cases hu : uri_to_path l with
    | none => simp [hk, hu]
    | some p =>
      by_cases he : cstr p = [] <;> simp [hk, hu, he]

/-- The processing loop is the comment/empty filter followed by per-line
decoding, over the CRLF line decomposition. -/
theorem uriListGo_spec : ∀ fuel : Nat, ∀ s : List Nat, s.length ≤ fuel →
    uriListGo fuel s = ((linesGo fuel s).filter keepLine).filterMap decodeLine := by
  intro fuel
  induction fuel with
  | zero =>
    intro s h
    have hs : s = [] := by cases s <;> simp_all
    subst hs
    rfl
  | succ fuel ih =>
    intro s h
    cases s with
    | nil => rfl
    | cons c t =>
      rcases hsp : splitCRLF (c :: t) with ⟨line, rest?⟩
      cases rest? with
      | some rest =>
        have hlen := splitCRLF_some_length (c :: t) line rest hsp
        have hr : rest.length ≤ fuel := by
          simp only [List.length_cons] at hlen h
          omega
        simp only [uriListGo, linesGo, hsp]
        rw [handleLine_eq, ih rest hr, List.filter_cons]
        by_cases hk : keepLine line <;> cases hd : decodeLine line <;>
          simp [hk, hd, List.filterMap_cons]
      | none =>
        simp only [uriListGo, linesGo, hsp]
        rw [handleLine_eq]
        by_cases hk : keepLine line <;> cases hd : decodeLine line <;>
          simp [hk, hd, List.filterMap_cons, List.filter_cons]

/-- C2: process_uri_list decodes a text/uri-list payload line by line
(CRLF separated): comment lines starting with the hash byte and empty
lines are skipped, every remaining line is decoded by uri_to_path with
non-file lines (and lines decoding to an empty path) silently dropped,
in payload order; in particular the payload of the two file URIs a.txt
and b.txt with a comment and a blank line between them decodes to
exactly the two paths in order. -/
theorem process_uri_list_filters_lines :
    (∀ data : List Nat,
        process_uri_list data
          = ((linesCRLF (cstr data)).filter keepLine).filterMap decodeLine)
    ∧ process_uri_list (bytes "file:///a.txt\r\n#comment\r\n\r\nfile:///b.txt\r\n")
        = [bytes "/a.txt", bytes "/b.txt"] :=
  ⟨fun data => uriListGo_spec (cstr data).length (cstr data) le_rfl, by decide⟩

end Teek

namespace Teek

/-! ## XDND handler behaviour -/

/-- C1: on the SelectionNotify carrying the TeekDropData property, the
handler reads and deletes the property, runs the uri-list decoder over
its contents and emits exactly one DropFile event with the whole ordered
path sequence (however many files it holds), then replies with a
finished/success message; with the property absent or empty it sends
finished/success and no event fires. In every case no further protocol
action is requested and the session record is left for the next Enter to
overwrite: the source keeps no phase variable, so completion (the return
to IDLE) is exactly this. -/
theorem selection_notify_completes_drop (st : TeekXdndState)
    (tl tl2 tl3 : Option (List Nat)) (d : List Nat)
    (hne : d ≠ []) (hlen : d.length ≤ 262144) :
    xdnd_event_handler st ⟨tl, some d⟩ (.selectionNotify teek_drop_prop)
      = ⟨st, [.emitDropFile (process_uri_list d), send_xdnd_finished st true], none, true⟩
    ∧ xdnd_event_handler st ⟨tl2, none⟩ (.selectionNotify teek_drop_prop)
      = ⟨st, [send_xdnd_finished st true], none, true⟩
    ∧ xdnd_event_handler st ⟨tl3, some []⟩ (.selectionNotify teek_drop_prop)
      = ⟨st, [send_xdnd_finished st true], none, true⟩ := by
  have ht : d.take 262144 = d := List.take_of_length_le hlen
  have hp : 0 < d.length := List.length_pos.mpr hne
  refine ⟨?_, ?_, ?_⟩ <;> simp [xdnd_event_handler, ht, hp]

/-- Witness for C1: a one-file payload yields the one event with the one
path and the success reply, with the property deleted. -/
theorem selection_notify_completes_drop_witness :
    (bytes "file:///a.txt\r\n" ≠ [] ∧ (bytes "file:///a.txt\r\n").length ≤ 262144)
    ∧ xdnd_event_handler ⟨5, 42, true⟩ ⟨none, some (bytes "file:///a.txt\r\n")⟩
        (.selectionNotify teek_drop_prop)
      = ⟨⟨5, 42, true⟩, [.emitDropFile [bytes "/a.txt"],
          send_xdnd_finished ⟨5, 42, true⟩ true], none, true⟩ := by
  refine ⟨⟨by decide, by decide⟩, ?_⟩
  have h := (selection_notify_completes_drop ⟨5, 42, true⟩ none none none
    (bytes "file:///a.txt\r\n") (by decide) (by decide)).1
  rw [h]
  decide

/-- C4: an XdndDrop received while the session is not accepting
immediately yields the finished/failure reply and nothing else: no
DropFile event, no selection conversion, the session record untouched
(the gesture is over at the wire level). -/
theorem drop_without_accept_finishes_failure (st : TeekXdndState) (env : XEnv)
    (cm : XClientMessage) (hmt : cm.message_type = xdnd_drop)
    (hacc : st.has_uri_list = false) :
    xdnd_event_handler st env (.clientMessage cm)
      = ⟨st, [send_xdnd_finished st false], env.dropProp, true⟩ := by
  simp [xdnd_event_handler, hmt, hacc, xdnd_drop, xdnd_enter, xdnd_position]

/-- Witness for C4 on a concrete non-accepting session. -/
theorem drop_without_accept_finishes_failure_witness :
    ((⟨5, 42, false⟩ : TeekXdndState).has_uri_list = false)
    ∧ xdnd_event_handler ⟨5, 42, false⟩ ⟨none, none⟩
        (.clientMessage { message_type := xdnd_drop })
      = ⟨⟨5, 42, false⟩, [send_xdnd_finished ⟨5, 42, false⟩ false], none, true⟩ :=
  ⟨rfl, drop_without_accept_finishes_failure _ _ _ rfl rfl⟩

/-- C5 counterexample: an XdndEnter advertising protocol version 6 is
dropped without a Status reply, but the session state does change: the
handler stores the sender in source_window before the version check, so
the claim that no field of the session state changes is false. -/
theorem enter_version_check_mutates_source :
    xdnd_event_handler ⟨5, 0, false⟩ ⟨none, none⟩
        (.clientMessage { message_type := xdnd_enter, l0 := 42, l1 := 6 <<< 24 })
      = ⟨⟨5, 42, false⟩, [], none, false⟩
    ∧ (⟨5, 42, false⟩ : TeekXdndState) ≠ ⟨5, 0, false⟩ := by
  refine ⟨by decide, by decide⟩

/-- C5 amended: on an XdndEnter whose advertised version exceeds 5 the
handler records the message sender in source_window (that write precedes
the version check), changes no other field, sends no XdndStatus reply,
performs no property read and returns unhandled. -/
theorem enter_high_version_records_source_only (st : TeekXdndState) (env : XEnv)
    (cm : XClientMessage) (hmt : cm.message_type = xdnd_enter)
    (hv : XDND_VERSION < (cm.l1 >>> 24) &&& 255) :
    xdnd_event_handler st env (.clientMessage cm)
      = ⟨{ st with source_window := cm.l0 }, [], env.dropProp, false⟩ := by
  simp [xdnd_event_handler, hmt, hv]

/-- Witness for the amended C5 at version 6. -/
theorem enter_high_version_records_source_only_witness :
    XDND_VERSION < (((6 : Nat) <<< 24) >>> 24) &&& 255
    ∧ xdnd_event_handler ⟨5, 0, false⟩ ⟨none, none⟩
        (.clientMessage { message_type := xdnd_enter, l0 := 42, l1 := 6 <<< 24 })
      = ⟨⟨5, 42, false⟩, [], none, false⟩ := by
  refine ⟨by decide, ?_⟩
  have h := enter_high_version_records_source_only ⟨5, 0, false⟩ ⟨none, none⟩
    { message_type := xdnd_enter, l0 := 42, l1 := 6 <<< 24 } rfl (by decide)
  rw [h]

/-- C6 counterexample: the handler has no XdndLeave branch at all. A
leave notification (any ClientMessage whose type atom is none of Enter,
Position, Drop, here atom 12) leaves a live accepting session entirely
intact, and a subsequent Drop still requests the selection conversion:
the leave did not terminate the session. -/
theorem leave_does_not_cancel_session :
    xdnd_event_handler ⟨5, 42, true⟩ ⟨none, none⟩
        (.clientMessage { message_type := 12 })
      = ⟨⟨5, 42, true⟩, [], none, false⟩
    ∧ (xdnd_event_handler ⟨5, 42, true⟩ ⟨none, none⟩
        (.clientMessage { message_type := xdnd_drop, l2 := 777 })).acts
      = [.convertSelection xdnd_selection text_uri_list teek_drop_prop 5 777] := by
  refine ⟨by decide, by decide⟩

/-- C6 amended: there is structurally at most one session record per
registration, and a leave notification emits no event; but it cancels
nothing: any ClientMessage other than Enter, Position and Drop (XdndLeave
included) is ignored with the session state completely unchanged, the
session being superseded only by the next Enter or consumed by the drop
path. -/
theorem unhandled_client_messages_ignored (st : TeekXdndState) (env : XEnv)
    (cm : XClientMessage) (h1 : cm.message_type ≠ xdnd_enter)
    (h2 : cm.message_type ≠ xdnd_position) (h3 : cm.message_type ≠ xdnd_drop) :
    xdnd_event_handler st env (.clientMessage cm) = ⟨st, [], env.dropProp, false⟩ := by
  simp [xdnd_event_handler, h1, h2, h3]

/-- Witness for the amended C6 at the leave atom 12. -/
theorem unhandled_client_messages_ignored_witness :
    ((12 : Nat) ≠ xdnd_enter) ∧ ((12 : Nat) ≠ xdnd_position) ∧ ((12 : Nat) ≠ xdnd_drop)
    ∧ xdnd_event_handler ⟨5, 42, true⟩ ⟨none, none⟩
        (.clientMessage { message_type := 12 })
      = ⟨⟨5, 42, true⟩, [], none, false⟩ :=
  ⟨by decide, by decide, by decide,
    unhandled_client_messages_ignored _ _ _ (by decide) (by decide) (by decide)⟩

/-! ## Registration -/

/-- C7 counterexample: on the X11 backend, registering the same window
twice succeeds both times but leaves two live adapter states for the
window, not one: the X11 registration has no already-registered check and
installs a fresh state and handler on every call. -/
theorem x11_double_registration_leaves_two_adapters :
    (teek_register_drop_target_x11 1 7 ⟨[], []⟩).2 = true
    ∧ (teek_register_drop_target_x11 1 7
        (teek_register_drop_target_x11 1 7 ⟨[], []⟩).1).2 = true
    ∧ x11_live_adapters
        (teek_register_drop_target_x11 1 7
          (teek_register_drop_target_x11 1 7 ⟨[], []⟩).1).1 7
      = 2 := by
  refine ⟨by decide, by decide, by decide⟩

/-- C7 amended: on the Windows backend double registration is idempotent
in the claimed sense (both calls return success and exactly one adapter
instance remains live for the window, the second one being freed on
DRAGDROP_E_ALREADYREGISTERED); on the X11 backend both calls also return
success but each installs a fresh adapter state, so the live count grows
by two. -/
theorem registration_idempotent_on_windows_not_x11 :
    (∀ (w : WinWorld) (hwnd : Nat), hwnd ≠ 0 →
        w.registered.any (fun p => p.1 == hwnd) = false →
        (teek_register_drop_target_win hwnd w).2 = true
        ∧ (teek_register_drop_target_win hwnd
            (teek_register_drop_target_win hwnd w).1).2 = true
        ∧ win_live_adapters
            (teek_register_drop_target_win hwnd
              (teek_register_drop_target_win hwnd w).1).1 hwnd
          = 1)
    ∧ (∀ (w : X11World) (dpy win : Nat), dpy ≠ 0 → win ≠ 0 →
        (teek_register_drop_target_x11 dpy win w).2 = true
        ∧ (teek_register_drop_target_x11 dpy win
            (teek_register_drop_target_x11 dpy win w).1).2 = true
        ∧ x11_live_adapters
            (teek_register_drop_target_x11 dpy win
              (teek_register_drop_target_x11 dpy win w).1).1 win
          = x11_live_adapters w win + 2) := by
  constructor
  · intro w hwnd h0 hany
    have hfil : w.registered.filter (fun p => p.1 == hwnd) = [] :=
      List.filter_eq_nil_iff.mpr (List.any_eq_false.mp hany)
    simp [teek_register_drop_target_win, RegisterDragDrop, win_live_adapters, h0, hany,
      List.any_append, List.filter_append, hfil]
  · intro w dpy win hd hw
    simp [teek_register_drop_target_x11, x11_live_adapters, x11_initial_state, hd, hw,
      List.filter_append]

/-- Witness for the amended C7 on a fresh window on each backend. -/
theorem registration_idempotent_on_windows_not_x11_witness :
    ((teek_register_drop_target_win 7 ⟨[], false⟩).2 = true
      ∧ win_live_adapters
          (teek_register_drop_target_win 7
            (teek_register_drop_target_win 7 ⟨[], false⟩).1).1 7
        = 1)
    ∧ x11_live_adapters
        (teek_register_drop_target_x11 1 9
          (teek_register_drop_target_x11 1 9 ⟨[], []⟩).1).1 9
      = x11_live_adapters ⟨[], []⟩ 9 + 2 := by
  have h1 := registration_idempotent_on_windows_not_x11.1 ⟨[], false⟩ 7 (by decide) (by decide)
  have h2 := registration_idempotent_on_windows_not_x11.2 ⟨[], []⟩ 1 9 (by decide) (by decide)
  exact ⟨⟨h1.1, h1.2.2⟩, h2.2.2⟩

/-! ## Windows adapter drag notifications -/

/-- C9 counterexample: DragEnter stores no acceptable flag in the adapter
state. The adapter state returned is identical to the input for a
file-list payload and a non-file payload alike (the TeekDropTarget struct
has no field for it): only the returned effect differs. -/
theorem drag_enter_state_independent_of_payload :
    tdt_DragEnter ⟨1, 7⟩ ⟨true⟩ = ⟨⟨1, 7⟩, DROPEFFECT_COPY, []⟩
    ∧ tdt_DragEnter ⟨1, 7⟩ ⟨false⟩ = ⟨⟨1, 7⟩, DROPEFFECT_NONE, []⟩
    ∧ (tdt_DragEnter ⟨1, 7⟩ ⟨true⟩).tdt = (tdt_DragEnter ⟨1, 7⟩ ⟨false⟩).tdt := by
  refine ⟨by decide, by decide, by decide⟩

/-- C9 amended: DragEnter inspects whether the payload advertises the
file-list format and replies with the copy effect if so and the none
effect otherwise, emitting no event and storing nothing (the adapter
state is returned unchanged, it keeps no per-drag flag); DragOver replies
with the copy effect unconditionally and changes no state. -/
theorem drag_enter_drag_over_stateless (t : TeekDropTarget) (d : IDataObject) :
    tdt_DragEnter t d
      = ⟨t, if has_file_data d then DROPEFFECT_COPY else DROPEFFECT_NONE, []⟩
    ∧ tdt_DragOver t = ⟨t, DROPEFFECT_COPY, []⟩ :=
  ⟨rfl, rfl⟩

end Teek
